import Mathlib

/-!
Shallow embedding of the buffer pool manager of the bunhance repository
(src/core/buffer.ts and src/core/buffer-ops.ts) together with proofs about
the claims of its specification.

Modelling conventions:
- JavaScript numbers that the code only ever uses as integers (dimensions,
  coordinates, sizes, timestamps, configuration fields) are modelled as Int.
  The Number.isInteger guards of the source therefore hold by construction
  and the corresponding branches are noted in comments.
- Uint8Array payloads are modelled as List Int, cell grids as List (List Cell).
  Payloads are compared by value; the embedding is functional, so in-place
  mutation of the source becomes construction of an updated value.
- Date.now() is modelled by an explicit now parameter on every operation
  that reads the clock.
- Exceptions are modelled with Except BufferError; a thrown error leaves the
  functional state untouched, matching the source where every throw happens
  before any mutation of the same call.
-/

namespace Bunhance

/-- RGB color triple, from src/types. -/
structure RGB where
  r : Int
  g : Int
  b : Int
deriving DecidableEq

/-- A terminal cell: character plus optional foreground/background colors
(type Cell in buffer.ts). -/
structure Cell where
  char : String
  fg : Option RGB := none
  bg : Option RGB := none
deriving DecidableEq

/-- The blank cell written by the various fill({ char: ' ' }) calls. -/
def blankCell : Cell := { char := " " }

/-- BufferType = 'raw' | 'cell'. -/
inductive BufferType
  | raw
  | cell
deriving DecidableEq

/-- BufferMetadata from buffer.ts. poolIndex is declared optional and never
assigned anywhere in the repository. -/
structure BufferMetadata where
  isPooled : Bool
  poolIndex : Option Int := none
  lastUsed : Int
  createdAt : Int
deriving DecidableEq

/-- Payload of a unified buffer: a Uint8Array for raw buffers, a 2-D grid of
cells for cell buffers. -/
inductive BufferData
  | raw (bytes : List Int)
  | cell (grid : List (List Cell))
deriving DecidableEq

/-- UnifiedBuffer = RawBuffer | CellBuffer: the tagged union with its tag,
declared dimensions, payload and metadata. -/
structure UnifiedBuffer where
  type : BufferType
  width : Int
  height : Int
  data : BufferData
  metadata : BufferMetadata
deriving DecidableEq

/-- RawPoolItem from buffer.ts. -/
structure RawPoolItem where
  buffer : List Int
  size : Int
  lastUsed : Int
deriving DecidableEq

/-- CellPoolItem from buffer.ts. -/
structure CellPoolItem where
  buffer : List (List Cell)
  size : Int
  lastUsed : Int
deriving DecidableEq

/-- Element type of SizeClass.buffers, which is (RawPoolItem | CellPoolItem)[]
in the source. -/
inductive PoolItem
  | raw (item : RawPoolItem)
  | cell (item : CellPoolItem)
deriving DecidableEq

/-- SizeClass = { size, buffers }. -/
structure SizeClass where
  size : Int
  buffers : List PoolItem
deriving DecidableEq

/-- The raw half of BufferPool; the overflow array is typed RawPoolItem[] in
the source. -/
structure RawPool where
  sizeClasses : List SizeClass
  overflow : List RawPoolItem
deriving DecidableEq

/-- The cell half of BufferPool. -/
structure CellPool where
  sizeClasses : List SizeClass
  overflow : List CellPoolItem
deriving DecidableEq

/-- BufferPool = { raw, cell }. -/
structure BufferPool where
  raw : RawPool
  cell : CellPool
deriving DecidableEq

/-- poolStrategy: 'fifo' | 'lru'. The field is stored but never read by the
pool code. -/
inductive PoolStrategy
  | fifo
  | lru
deriving DecidableEq

/-- BufferManagerConfig from buffer.ts. growthFactor is stored (default 1.5)
and never read. -/
structure BufferManagerConfig where
  poolSize : Int
  maxBufferSize : Int
  cleanupInterval : Int
  initialBufferSize : Int
  poolStrategy : PoolStrategy
  maxPoolSize : Int
  growthFactor : Rat
deriving DecidableEq

/-- DEFAULT_CONFIG from buffer.ts. -/
def DEFAULT_CONFIG : BufferManagerConfig where
  poolSize := 10
  maxBufferSize := 1024 * 1024
  cleanupInterval := 60000
  initialBufferSize := 1024
  poolStrategy := .lru
  maxPoolSize := 20
  growthFactor := (3 : Rat) / 2

/-- BufferManager state: the pool, the active registry (a Map from string
keys to live buffers, modelled as an association list in insertion order)
and the configuration. The methods of the source object are modelled as the
top-level functions below. -/
structure BufferManager where
  pool : BufferPool
  active : List (String × UnifiedBuffer)
  config : BufferManagerConfig
deriving DecidableEq

/-- Errors: BufferError is the base class, BufferValidationError the
subclass. The validationError constructor carries the message passed to the
BufferValidationError constructor (before the prefix added by the subclass
constructor); both variants are instances of BufferError for the purpose of
the instanceof checks in the source. -/
inductive BufferError
  | bufferError (msg : String)
  | validationError (msg : String)
deriving DecidableEq

/-- Number.MAX_SAFE_INTEGER. -/
def maxSafeInteger : Int := 2 ^ 53 - 1

/-- validateBufferDimensions from buffer.ts. The Number.isInteger guard is
vacuous in the Int model. -/
def validateBufferDimensions (width height : Int) : Except BufferError Unit :=
  if width ≤ 0 ∨ height ≤ 0 then
    .error (.validationError "Buffer dimensions must be positive")
  else if maxSafeInteger < width ∨ maxSafeInteger < height then
    .error (.validationError "Buffer dimensions exceed maximum safe integer")
  else
    .ok ()

/-- validateBufferAccess from buffer.ts. The Number.isInteger guard is
vacuous in the Int model. -/
def validateBufferAccess (buffer : UnifiedBuffer) (x y : Int) :
    Except BufferError Unit :=
  if x < 0 ∨ y < 0 ∨ buffer.width ≤ x ∨ buffer.height ≤ y then
    .error (.validationError "Buffer access out of bounds")
  else
    .ok ()

/-- isRawBuffer: tag is raw and the payload is a Uint8Array. -/
def isRawBuffer (buffer : UnifiedBuffer) : Bool :=
  match buffer.type, buffer.data with
  | .raw, .raw _ => true
  | _, _ => false

/-- isCellBuffer: tag is cell and the payload is an array. -/
def isCellBuffer (buffer : UnifiedBuffer) : Bool :=
  match buffer.type, buffer.data with
  | .cell, .cell _ => true
  | _, _ => false

/-- isRawPoolItem: the item payload is a Uint8Array. -/
def isRawPoolItem : PoolItem → Bool
  | .raw _ => true
  | .cell _ => false

/-- isCellPoolItem: the item payload is an array. -/
def isCellPoolItem : PoolItem → Bool
  | .raw _ => false
  | .cell _ => true

/-- lastUsed of either pool item variant. -/
def PoolItem.lastUsed : PoolItem → Int
  | .raw item => item.lastUsed
  | .cell item => item.lastUsed

/-- disposeBuffer from buffer.ts: zero the payload (bytes to 0, cells to the
blank cell) and reset lastUsed to 0. -/
def disposeBuffer (buffer : UnifiedBuffer) : UnifiedBuffer :=
  let data :=
    match buffer.data with
    | .raw bytes => BufferData.raw (List.replicate bytes.length 0)
    | .cell grid => BufferData.cell (grid.map fun row => row.map fun _ => blankCell)
  { buffer with data := data, metadata := { buffer.metadata with lastUsed := 0 } }

/-- createRawBuffer from buffer.ts. -/
def createRawBuffer (data : List Int) (width height : Int) (now : Int) :
    UnifiedBuffer where
  type := .raw
  width := width
  height := height
  data := .raw data
  metadata := { isPooled := true, lastUsed := now, createdAt := now }

/-- createCellBuffer from buffer.ts: a grid of height rows of width blank
cells (negative dimensions give empty arrays, as Array.from does). -/
def createCellBuffer (width height : Int) (now : Int) : UnifiedBuffer where
  type := .cell
  width := width
  height := height
  data := .cell (List.replicate height.toNat (List.replicate width.toNat blankCell))
  metadata := { isPooled := true, lastUsed := now, createdAt := now }

/-- Loop body of createSizeClasses: push classes size, size*2, ... while
size stays at most max. The fuel argument only serves termination; with
fuel at least max.toNat + 1 it never runs out because the size at least
doubles from a positive start (a non-positive initial size never enters the
loop body in any configuration considered here). -/
def createSizeClassesGo : Nat → Int → Int → List SizeClass
  | 0, _, _ => []
  | fuel + 1, size, max =>
    if size ≤ max then
      { size := size, buffers := [] } :: createSizeClassesGo fuel (size * 2) max
    else
      []

/-- createSizeClasses from createBufferManager: size classes from
initialBufferSize doubling while at most maxBufferSize. -/
def createSizeClasses (config : BufferManagerConfig) : List SizeClass :=
  createSizeClassesGo (config.maxBufferSize.toNat + 1) config.initialBufferSize
    config.maxBufferSize

/-- createBufferManager: fresh empty pools for both kinds, empty active
registry. The periodic cleanup timer and process-exit hook are scheduling
side effects outside the functional model; the cleanup operation itself is
modelled below. The Partial-config merge of the source corresponds to
building the argument with structure-update syntax from DEFAULT_CONFIG. -/
def createBufferManager (config : BufferManagerConfig) : BufferManager where
  pool :=
    { raw := { sizeClasses := createSizeClasses config, overflow := [] }
      cell := { sizeClasses := createSizeClasses config, overflow := [] } }
  active := []
  config := config

/-- findSizeClass: first class whose capacity is at least the requirement. -/
def findSizeClass (classes : List SizeClass) (required : Int) : Option SizeClass :=
  classes.find? fun c => required ≤ c.size

/-- getOptimalBufferSize from buffer.ts: the capacity of the smallest raw
size class that fits, else maxBufferSize. -/
def getOptimalBufferSize (m : BufferManager) (requested : Int) : Int :=
  match findSizeClass m.pool.raw.sizeClasses requested with
  | some sizeClass => sizeClass.size
  | none => m.config.maxBufferSize

/-! Buffer operations, from src/core/buffer-ops.ts. -/

/-- Value passed to writeToBuffer and returned by readFromBuffer: a Cell or
a Uint8Array (the data argument is typed Cell | Uint8Array). -/
inductive BufferValue
  | cellData (c : Cell)
  | rawData (bytes : List Int)
deriving DecidableEq

/-- isCellData from buffer-ops.ts: the object has a string char property.
Every Cell value does; a Uint8Array has none. -/
def isCellData : BufferValue → Bool
  | .cellData _ => true
  | .rawData _ => false

/-- isRawData from buffer-ops.ts: ArrayBuffer.isView holds of a Uint8Array
and fails on a plain Cell object. -/
def isRawData : BufferValue → Bool
  | .cellData _ => false
  | .rawData _ => true

/-- Total number of pooled items across the size classes of one kind, as in
the reduce expression of releaseBuffer and resizePool. -/
def classCount (classes : List SizeClass) : Nat :=
  (classes.map fun sc => sc.buffers.length).sum

/-- Replace the element at an index by applying f to it (no change when the
index is out of range); models in-place mutation of one array element. -/
def modifyIdx (l : List α) (i : Nat) (f : α → α) : List α :=
  match l[i]? with
  | none => l
  | some a => l.set i (f a)

/-- The sizeClass.buffers.pop() step of acquireBuffer: locate the first size
class whose capacity fits and, when it is nonempty, remove and return its
last item. Returns the popped item (if any) together with the updated size
class list. -/
def popFromSizeClass (classes : List SizeClass) (size : Int) :
    Option PoolItem × List SizeClass :=
  match classes.findIdx? (fun sc => size ≤ sc.size) with
  | none => (none, classes)
  | some i =>
    match classes[i]? with
    | none => (none, classes)
    | some sc =>
      match sc.buffers.getLast? with
      | none => (none, classes)
      | some item => (some item, classes.set i { sc with buffers := sc.buffers.dropLast })

/-- The overflow scan of acquireBuffer for raw buffers: among the overflow
items whose size fits, the one with the smallest size, ties resolved to the
first in array order (filter followed by a stable sort, then index 0). -/
def pickOverflowRaw (overflow : List RawPoolItem) (size : Int) : Option RawPoolItem :=
  (overflow.filter fun item => size ≤ item.size).foldl
    (fun best item =>
      match best with
      | none => some item
      | some b => if item.size < b.size then some item else some b)
    none

/-- The overflow scan of acquireBuffer for cell buffers. -/
def pickOverflowCell (overflow : List CellPoolItem) (size : Int) : Option CellPoolItem :=
  (overflow.filter fun item => size ≤ item.size).foldl
    (fun best item =>
      match best with
      | none => some item
      | some b => if item.size < b.size then some item else some b)
    none

/-- The raw branch of acquireBuffer (validation already done, size is
width*height). The overflow filter with a reference-inequality removes
exactly the picked item; values in this model coincide with the removal of
the first value-equal occurrence. -/
def acquireRaw (m : BufferManager) (width height size now : Int) :
    UnifiedBuffer × BufferManager :=
  let (item?, sizeClasses) := popFromSizeClass m.pool.raw.sizeClasses size
  let m := { m with pool.raw.sizeClasses := sizeClasses }
  match item? with
  | some (.raw item) => (createRawBuffer item.buffer width height now, m)
  | _ =>
    -- pop missed (no class, class empty, or the isRawPoolItem guard failed):
    -- fall through to the overflow pool
    match pickOverflowRaw m.pool.raw.overflow size with
    | some optimal =>
      (createRawBuffer optimal.buffer width height now,
        { m with pool.raw.overflow := m.pool.raw.overflow.erase optimal })
    | none =>
      let bufferSize := getOptimalBufferSize m size
      (createRawBuffer (List.replicate bufferSize.toNat 0) width height now, m)

/-- The cell branch of acquireBuffer. A recycled grid is installed as the
data of the fresh wrapper by buffer.data = item.buffer.map(row => [...row]);
the row copies are value-identical to the pooled rows, so the model installs
the pooled grid itself. -/
def acquireCell (m : BufferManager) (width height size now : Int) :
    UnifiedBuffer × BufferManager :=
  let (item?, sizeClasses) := popFromSizeClass m.pool.cell.sizeClasses size
  let m := { m with pool.cell.sizeClasses := sizeClasses }
  match item? with
  | some (.cell item) =>
    ({ createCellBuffer width height now with data := .cell item.buffer }, m)
  | _ =>
    match pickOverflowCell m.pool.cell.overflow size with
    | some optimal =>
      ({ createCellBuffer width height now with data := .cell optimal.buffer },
        { m with pool.cell.overflow := m.pool.cell.overflow.erase optimal })
    | none => (createCellBuffer width height now, m)

/-- acquireBuffer from buffer-ops.ts. Validation happens outside the
try/catch; the try body of the source contains no throwing operation, so
the catch-and-wrap clause is dead in the model. -/
def acquireBuffer (m : BufferManager) (type : BufferType) (width height now : Int) :
    Except BufferError (UnifiedBuffer × BufferManager) :=
  match validateBufferDimensions width height with
  | .error e => .error e
  | .ok _ =>
    let size := width * height
    match type with
    | .raw => .ok (acquireRaw m width height size now)
    | .cell => .ok (acquireCell m width height size now)

/-- Append an item to the buffers of the size class at the given index
(sizeClass.buffers.push). -/
def pushIntoClass (classes : List SizeClass) (i : Nat) (item : PoolItem) :
    List SizeClass :=
  modifyIdx classes i fun sc => { sc with buffers := sc.buffers ++ [item] }

/-- The release path for a raw payload: find a fitting size class; push into
it when the total pooled count of the raw kind is below maxPoolSize, else
push into overflow when overflow.length < maxPoolSize / 2 (a float division
in the source; for integer lengths the comparison is 2 * length <
maxPoolSize), else drop the payload. -/
def releaseRawPayload (m : BufferManager) (item : RawPoolItem) (size : Int) :
    BufferManager :=
  let classes := m.pool.raw.sizeClasses
  let intoOverflow : BufferManager :=
    if 2 * (m.pool.raw.overflow.length : Int) < m.config.maxPoolSize then
      { m with pool.raw.overflow := m.pool.raw.overflow ++ [item] }
    else m
  match classes.findIdx? (fun sc => size ≤ sc.size) with
  | some i =>
    if (classCount classes : Int) < m.config.maxPoolSize then
      { m with pool.raw.sizeClasses := pushIntoClass classes i (.raw item) }
    else intoOverflow
  | none => intoOverflow

/-- The release path for a cell payload, symmetric to the raw one. -/
def releaseCellPayload (m : BufferManager) (item : CellPoolItem) (size : Int) :
    BufferManager :=
  let classes := m.pool.cell.sizeClasses
  let intoOverflow : BufferManager :=
    if 2 * (m.pool.cell.overflow.length : Int) < m.config.maxPoolSize then
      { m with pool.cell.overflow := m.pool.cell.overflow ++ [item] }
    else m
  match classes.findIdx? (fun sc => size ≤ sc.size) with
  | some i =>
    if (classCount classes : Int) < m.config.maxPoolSize then
      { m with pool.cell.sizeClasses := pushIntoClass classes i (.cell item) }
    else intoOverflow
  | none => intoOverflow

/-- Remove the first active entry whose value is the released buffer (the
for-loop over manager.active with reference equality; entries are compared
by value in the model). -/
def removeFromActive (active : List (String × UnifiedBuffer)) (b : UnifiedBuffer) :
    List (String × UnifiedBuffer) :=
  match active with
  | [] => []
  | (k, v) :: rest =>
    if v = b then rest else (k, v) :: removeFromActive rest b

/-- releaseBuffer from buffer-ops.ts: no-op for unpooled buffers; clear the
payload in place (data.fill(0) for raw, row.fill(blank) for cell) and pool
the cleared payload (the cell branch pools a row-copy of the cleared grid,
which is value-identical to it); buffers failing both the isRawBuffer and
isCellBuffer guards are not pooled. Finally drop the buffer from the active
registry. -/
def releaseBuffer (m : BufferManager) (buffer : UnifiedBuffer) (now : Int) :
    BufferManager :=
  if buffer.metadata.isPooled = false then m
  else
    let size := buffer.width * buffer.height
    let m :=
      match buffer.type, buffer.data with
      | .raw, .raw bytes =>
        releaseRawPayload m
          { buffer := List.replicate bytes.length 0, size := size, lastUsed := now } size
      | .cell, .cell grid =>
        releaseCellPayload m
          { buffer := grid.map fun (row : List Cell) => row.map fun _ => blankCell
            size := size, lastUsed := now } size
      | _, _ => m
    { m with active := removeFromActive m.active buffer }

/-- Uint8Array.prototype.set: overwrite source.length bytes of the target at
the given offset. Only called under the guard that the write fits. -/
def uint8ArraySet (target source : List Int) (offset : Nat) : List Int :=
  target.take offset ++ source ++ target.drop (offset + source.length)

/-- writeToBuffer from buffer-ops.ts. The branch structure mirrors the
isCellBuffer / isRawBuffer dispatch; a tag/payload-inconsistent buffer fails
both guards and raises Invalid buffer type. A raw write whose byte range
does not fit raises the RangeError of Uint8Array.set, wrapped into Buffer
write failed by the catch clause; a cell write whose row index misses the
(possibly malformed) grid raises the TypeError of indexing undefined, also
wrapped. Cell writes within a row use List.set, matching the in-range
assignment (the assignment to an index beyond the row length of a malformed
grid is not exercised by any theorem below). On success lastUsed is
stamped. -/
def writeToBuffer (buffer : UnifiedBuffer) (x y : Int) (value : BufferValue)
    (now : Int) : Except BufferError UnifiedBuffer :=
  match validateBufferAccess buffer x y with
  | .error e => .error e
  | .ok _ =>
    match buffer.type, buffer.data, value with
    | .cell, .cell grid, .cellData c =>
      match (grid[y.toNat]? : Option (List Cell)) with
      | some row =>
        .ok { buffer with
              data := .cell (grid.set y.toNat (row.set x.toNat c))
              metadata := { buffer.metadata with lastUsed := now } }
      | none => .error (.bufferError "Buffer write failed")
    | .cell, .cell _, .rawData _ => .error (.bufferError "Invalid cell data format")
    | .raw, .raw bytes, .rawData source =>
      let offset : Int := (y * buffer.width + x) * (source.length : Int)
      if offset.toNat + source.length ≤ bytes.length then
        .ok { buffer with
              data := .raw (uint8ArraySet bytes source offset.toNat)
              metadata := { buffer.metadata with lastUsed := now } }
      else .error (.bufferError "Buffer write failed")
    | .raw, .raw _, .cellData _ => .error (.bufferError "Invalid raw data format")
    | .cell, .raw _, _ => .error (.bufferError "Invalid buffer type")
    | .raw, .cell _, _ => .error (.bufferError "Invalid buffer type")

/-- readFromBuffer from buffer-ops.ts. Validation failures are BufferError
instances and so are caught and turned into a null result (ok none). On a
cell buffer the cell at (x, y) is copy-returned; a missing row on a
malformed grid raises a TypeError, wrapped into Buffer read failed. On a
raw buffer a one-byte subarray at offset y*width+x is returned (possibly
empty, as subarray clamps). A tag/payload-inconsistent buffer leaves the
result null without stamping lastUsed. On success lastUsed is stamped. -/
def readFromBuffer (buffer : UnifiedBuffer) (x y now : Int) :
    Except BufferError (Option BufferValue × UnifiedBuffer) :=
  match validateBufferAccess buffer x y with
  | .error _ => .ok (none, buffer)
  | .ok _ =>
    match buffer.type, buffer.data with
    | .cell, .cell grid =>
      match grid[y.toNat]? with
      | some row =>
        match row[x.toNat]? with
        | some c =>
          .ok (some (.cellData c),
            { buffer with metadata := { buffer.metadata with lastUsed := now } })
        | none => .error (.bufferError "Buffer read failed")
      | none => .error (.bufferError "Buffer read failed")
    | .raw, .raw bytes =>
      let offset : Int := y * buffer.width + x
      .ok (some (.rawData ((bytes.drop offset.toNat).take 1)),
        { buffer with metadata := { buffer.metadata with lastUsed := now } })
    | .cell, .raw _ => .ok (none, buffer)
    | .raw, .cell _ => .ok (none, buffer)

/-! Cleanup, eviction and pool resizing, from the manager object literal in
buffer.ts. -/

/-- The isExpired predicate of cleanup: now - lastUsed at least
cleanupInterval. -/
def isExpired (config : BufferManagerConfig) (now lastUsed : Int) : Bool :=
  config.cleanupInterval ≤ now - lastUsed

/-- The size-class half of cleanupPool: expired items are payload-cleared
and then dropped by the filter assigned back to sizeClass.buffers (the
clearing of a dropped item is unobservable in the functional model). -/
def cleanupSizeClasses (config : BufferManagerConfig) (now : Int)
    (classes : List SizeClass) : List SizeClass :=
  classes.map fun sc =>
    { sc with buffers := sc.buffers.filter fun item =>
        !(isExpired config now item.lastUsed) }

/-- The overflow half of cleanupPool for raw items. The filtered copy is
assigned to the local overflow parameter of cleanupPool and lost, so no item
is removed from the pool; the in-place buffer.fill(0) of each expired item
does persist. -/
def cleanupOverflowRaw (config : BufferManagerConfig) (now : Int)
    (overflow : List RawPoolItem) : List RawPoolItem :=
  overflow.map fun item =>
    if isExpired config now item.lastUsed then
      { item with buffer := List.replicate item.buffer.length 0 }
    else item

/-- The overflow half of cleanupPool for cell items; as in the raw case only
the in-place blanking persists. -/
def cleanupOverflowCell (config : BufferManagerConfig) (now : Int)
    (overflow : List CellPoolItem) : List CellPoolItem :=
  overflow.map fun item =>
    if isExpired config now item.lastUsed then
      let cleared := item.buffer.map fun (row : List Cell) => row.map fun _ => blankCell
      { item with buffer := cleared }
    else item

/-- cleanup from buffer.ts: clean both pools, then drop expired entries from
the active registry (each is disposed in place, which is unobservable for a
dropped entry). -/
def cleanup (m : BufferManager) (now : Int) : BufferManager :=
  { m with
    pool :=
      { raw :=
          { sizeClasses := cleanupSizeClasses m.config now m.pool.raw.sizeClasses
            overflow := cleanupOverflowRaw m.config now m.pool.raw.overflow }
        cell :=
          { sizeClasses := cleanupSizeClasses m.config now m.pool.cell.sizeClasses
            overflow := cleanupOverflowCell m.config now m.pool.cell.overflow } }
    active := m.active.filter fun entry =>
      !(isExpired m.config now entry.2.metadata.lastUsed) }

/-- Where the evictBuffer scan found the globally oldest pooled item. -/
inductive EvictChoice
  | nothing
  | inClass (i : Nat) (item : PoolItem)
  | inOverflow
deriving DecidableEq

/-- The size-class scan of evictBuffer: for every item of every class, keep
the strictly smallest lastUsed seen so far (starting from now), remembering
its class index. With ties the first item in scan order is kept. -/
def scanClassesGo : List SizeClass → Nat → Int × EvictChoice → Int × EvictChoice
  | [], _, best => best
  | sc :: rest, i, best =>
    scanClassesGo rest (i + 1)
      (sc.buffers.foldl
        (fun b item =>
          if item.lastUsed < b.1 then (item.lastUsed, .inClass i item) else b)
        best)

/-- evictBuffer from buffer.ts, raw pool. The overflow scan can supersede a
size-class candidate (clearing oldestClass); when the winner sits in a size
class the filter assigned to oldestClass.buffers removes it, but when it
sits in the overflow the filtered copy is assigned to the local overflow
parameter and lost, so the pool is returned unchanged. The required
argument of the source is unused. -/
def evictBufferRaw (p : RawPool) (now : Int) : RawPool :=
  let best := scanClassesGo p.sizeClasses 0 (now, .nothing)
  let best := p.overflow.foldl
    (fun b item => if item.lastUsed < b.1 then (item.lastUsed, EvictChoice.inOverflow) else b)
    best
  match best.2 with
  | .inClass i item =>
    let sizeClasses := modifyIdx p.sizeClasses i
      fun sc => { sc with buffers := sc.buffers.erase item }
    { p with sizeClasses := sizeClasses }
  | .inOverflow => p
  | .nothing => p

/-- evictBuffer from buffer.ts, cell pool; identical logic. -/
def evictBufferCell (p : CellPool) (now : Int) : CellPool :=
  let best := scanClassesGo p.sizeClasses 0 (now, .nothing)
  let best := p.overflow.foldl
    (fun b item => if item.lastUsed < b.1 then (item.lastUsed, EvictChoice.inOverflow) else b)
    best
  match best.2 with
  | .inClass i item =>
    let sizeClasses := modifyIdx p.sizeClasses i
      fun sc => { sc with buffers := sc.buffers.erase item }
    { p with sizeClasses := sizeClasses }
  | .inOverflow => p
  | .nothing => p

/-- The while loop of resizePool for the raw pool. The guard is the
comparison totalBuffers > newSize of the source: totalBuffers is a const
snapshot taken before the loop and never recomputed, so the guard is a
fixed Bool. The fuel argument bounds the number of iterations of the model;
a result of none means that the loop was still running when the fuel ran
out, and the theorems below show this happens for every fuel whenever the
guard is true, which is how the model expresses that the source loop never
terminates. -/
def resizeLoopRaw (guard : Bool) (now : Int) : Nat → RawPool → Option RawPool
  | 0, p => if guard then none else some p
  | fuel + 1, p =>
    if guard then resizeLoopRaw guard now fuel (evictBufferRaw p now) else some p

/-- The while loop of resizePool for the cell pool. -/
def resizeLoopCell (guard : Bool) (now : Int) : Nat → CellPool → Option CellPool
  | 0, p => if guard then none else some p
  | fuel + 1, p =>
    if guard then resizeLoopCell guard now fuel (evictBufferCell p now) else some p

/-- resizePool from buffer.ts. Raises a validation error when newSize
exceeds maxPoolSize (the source message interpolates the maximum; the model
uses the fixed prefix). Otherwise runs the eviction loop on the pool of the
requested kind; ok none reports that the loop failed to finish within the
given fuel. -/
def resizePool (m : BufferManager) (type : BufferType) (newSize now : Int)
    (fuel : Nat) : Except BufferError (Option BufferManager) :=
  if m.config.maxPoolSize < newSize then
    .error (.validationError "Pool size cannot exceed")
  else
    match type with
    | .raw =>
      let totalBuffers : Int :=
        (classCount m.pool.raw.sizeClasses : Int) + m.pool.raw.overflow.length
      match resizeLoopRaw (decide (newSize < totalBuffers)) now fuel m.pool.raw with
      | none => .ok none
      | some p => .ok (some { m with pool.raw := p })
    | .cell =>
      let totalBuffers : Int :=
        (classCount m.pool.cell.sizeClasses : Int) + m.pool.cell.overflow.length
      match resizeLoopCell (decide (newSize < totalBuffers)) now fuel m.pool.cell with
      | none => .ok none
      | some p => .ok (some { m with pool.cell := p })

/-! Sequences of pool operations, for the claims quantifying over every
sequence of API calls on a manager. -/

/-- One API call against a manager: an acquire (whose returned buffer is
dropped here; the released buffers of later calls are quantified
separately), a release of some buffer value, or a cleanup pass. -/
inductive ManagerOp
  | acquireOp (type : BufferType) (width height now : Int)
  | releaseOp (buffer : UnifiedBuffer) (now : Int)
  | cleanupOp (now : Int)

/-- Apply one call to the manager state; a failed acquire leaves the state
unchanged (validation happens before any mutation). -/
def applyOp (m : BufferManager) : ManagerOp → BufferManager
  | .acquireOp type width height now =>
    match acquireBuffer m type width height now with
    | .ok (_, m2) => m2
    | .error _ => m
  | .releaseOp buffer now => releaseBuffer m buffer now
  | .cleanupOp now => cleanup m now

/-- Run a sequence of calls from left to right. -/
def runOps (m : BufferManager) (ops : List ManagerOp) : BufferManager :=
  ops.foldl applyOp m

/-! Specification-level predicates and concrete scenario instances used by
the theorems below. -/

/-- Shape consistency of a unified buffer, following the data-model
invariant of the specification: the tag matches the payload, a cell grid
has exactly height rows of width cells, a raw payload has capacity at least
width * height. -/
def validBuffer (b : UnifiedBuffer) : Bool :=
  match b.type, b.data with
  | .raw, .raw bytes => b.width * b.height ≤ (bytes.length : Int)
  | .cell, .cell grid =>
    ((grid.length : Int) = b.height) &&
      grid.all fun row => (row.length : Int) = b.width
  | _, _ => false

/-- A byte payload is blank when every byte is zero. -/
def bytesBlank (bytes : List Int) : Prop := ∀ v ∈ bytes, v = 0

/-- A cell grid is blank when every cell is the blank cell. -/
def gridBlank (grid : List (List Cell)) : Prop := ∀ row ∈ grid, ∀ c ∈ row, c = blankCell

/-- Blankness of a pool item payload. -/
def poolItemBlank : PoolItem → Prop
  | .raw item => bytesBlank item.buffer
  | .cell item => gridBlank item.buffer

/-- Every pooled item of every size class is blank. -/
def classesBlank (classes : List SizeClass) : Prop :=
  ∀ sc ∈ classes, ∀ item ∈ sc.buffers, poolItemBlank item

/-- Every pooled payload of the manager, in size classes and overflow of
both kinds, is blank. -/
def poolBlank (m : BufferManager) : Prop :=
  classesBlank m.pool.raw.sizeClasses ∧
  (∀ item ∈ m.pool.raw.overflow, bytesBlank item.buffer) ∧
  classesBlank m.pool.cell.sizeClasses ∧
  (∀ item ∈ m.pool.cell.overflow, gridBlank item.buffer)

/-- The payload of a buffer is blank. -/
def bufferBlank (b : UnifiedBuffer) : Prop :=
  match b.data with
  | .raw bytes => bytesBlank bytes
  | .cell grid => gridBlank grid

/-- The capacity bound the code actually maintains per kind: at most
maxPoolSize pooled items across the size classes, and at most
ceil(maxPoolSize / 2) items in the overflow (stated as 2 * length at most
maxPoolSize + 1). -/
def capacityInvariant (m : BufferManager) : Prop :=
  (classCount m.pool.raw.sizeClasses : Int) ≤ m.config.maxPoolSize ∧
  2 * (m.pool.raw.overflow.length : Int) ≤ m.config.maxPoolSize + 1 ∧
  (classCount m.pool.cell.sizeClasses : Int) ≤ m.config.maxPoolSize ∧
  2 * (m.pool.cell.overflow.length : Int) ≤ m.config.maxPoolSize + 1

/-- A tiny configuration: a single size class of capacity 1 and
maxPoolSize 2 (the other fields keep their defaults). -/
def smallConfig : BufferManagerConfig :=
  { DEFAULT_CONFIG with maxPoolSize := 2, initialBufferSize := 1, maxBufferSize := 1 }

/-- The freshly created small manager. -/
def smallManager : BufferManager := createBufferManager smallConfig

/-- The fresh raw 1x1 buffer acquireBuffer returns on the empty small
manager at time 0. -/
def freshRaw11 : UnifiedBuffer := createRawBuffer [0] 1 1 0

/-- Three acquire calls on the empty small manager (each returns
freshRaw11) followed by the three releases of the returned buffers. -/
def overfillOps : List ManagerOp :=
  [.acquireOp .raw 1 1 0, .acquireOp .raw 1 1 0, .acquireOp .raw 1 1 0,
   .releaseOp freshRaw11 0, .releaseOp freshRaw11 0, .releaseOp freshRaw11 0]

/-- The small configuration with cleanupInterval 5. -/
def cleanupConfig : BufferManagerConfig := { smallConfig with cleanupInterval := 5 }

/-- Overfill the pool at time 0, then run a cleanup pass at time 10 (both
pooled timestamps are then 10 time units old, twice the interval). -/
def cleanupOps : List ManagerOp := overfillOps ++ [.cleanupOp 10]

/-- The small manager holding exactly one pooled raw item. -/
def oneItemManager : BufferManager := runOps smallManager [.releaseOp freshRaw11 0]

/-- Configuration with size classes of capacities 1 and 2. -/
def shapeConfig : BufferManagerConfig :=
  { DEFAULT_CONFIG with maxPoolSize := 2, initialBufferSize := 1, maxBufferSize := 2 }

/-- The freshly created manager for the shape scenario. -/
def shapeManager : BufferManager := createBufferManager shapeConfig

/-- A fresh 2x1 cell buffer: one row of two blank cells. -/
def cellBuf21 : UnifiedBuffer := createCellBuffer 2 1 0

/-- The shape manager after releasing the 2x1 cell buffer: its grid is
pooled in the size class of capacity 2. -/
def shapeManagerPooled : BufferManager := runOps shapeManager [.releaseOp cellBuf21 0]

/-- A valid raw 2x2 buffer whose payload has exactly 4 zero bytes. -/
def rawBuf4 : UnifiedBuffer := createRawBuffer (List.replicate 4 0) 2 2 0

/-- The result of writing bytes [7, 9] at (0, 0) of rawBuf4 at time 1. -/
def rawBuf4Written : UnifiedBuffer where
  type := .raw
  width := 2
  height := 2
  data := .raw [7, 9, 0, 0]
  metadata := { isPooled := true, lastUsed := 1, createdAt := 0 }

/-- A valid raw 2x2 buffer whose payload has 8 zero bytes. -/
def rawBuf8 : UnifiedBuffer := createRawBuffer (List.replicate 8 0) 2 2 0

/-- The result of writing bytes [5, 6] at (0, 1) of rawBuf8 at time 1: the
two bytes land at offsets 4 and 5. -/
def rawBuf8Written : UnifiedBuffer where
  type := .raw
  width := 2
  height := 2
  data := .raw [0, 0, 0, 0, 5, 6, 0, 0]
  metadata := { isPooled := true, lastUsed := 1, createdAt := 0 }

/-- A fresh 3x2 cell buffer. -/
def cellBuf32 : UnifiedBuffer := createCellBuffer 3 2 0

/-! Theorems. -/

/-- Helper for claim C3: once the loop guard of resizePool is true it stays
true, because it compares the never-recomputed totalBuffers snapshot with
newSize; hence the loop runs out of any amount of fuel. -/
theorem resizeLoopRaw_true_eq_none (now : Int) :
    ∀ (fuel : Nat) (p : RawPool), resizeLoopRaw true now fuel p = none := by
  intro fuel
  induction fuel with
  | zero => intro p; rfl
  | succ n ih => intro p; simpa [resizeLoopRaw] using ih (evictBufferRaw p now)

/-- Helper for claim C3: resizePool on the raw pool diverges (never leaves
its loop, whatever the fuel) as soon as newSize passes the maxPoolSize
check but lies below the pool population snapshot. -/
theorem resizePool_raw_diverges (m : BufferManager) (newSize now : Int) (fuel : Nat)
    (h1 : ¬ m.config.maxPoolSize < newSize)
    (h2 : newSize < (classCount m.pool.raw.sizeClasses : Int) +
      m.pool.raw.overflow.length) :
    resizePool m .raw newSize now fuel = .ok none := by
  unfold resizePool
  rw [if_neg h1]
  simp only [decide_eq_true h2, resizeLoopRaw_true_eq_none]

/-- C1, counterexample: the claimed bound total pooled + overflow at most
maxPoolSize fails. On the small manager (maxPoolSize 2) the three
acquire calls of overfillOps each return freshRaw11 (first conjunct) and
leave the manager unchanged; the three releases of that buffer then pool 2
items in the size classes plus 1 in the overflow, a total of 3 > 2. -/
theorem capacity_claim_counterexample :
    acquireBuffer smallManager .raw 1 1 0 = .ok (freshRaw11, smallManager) ∧
    classCount (runOps smallManager overfillOps).pool.raw.sizeClasses = 2 ∧
    (runOps smallManager overfillOps).pool.raw.overflow.length = 1 ∧
    ¬ ((classCount (runOps smallManager overfillOps).pool.raw.sizeClasses : Int) +
        ((runOps smallManager overfillOps).pool.raw.overflow.length : Int) ≤
        smallConfig.maxPoolSize) :=
  ⟨rfl, rfl, rfl, by decide⟩

/-- C2: the code slip behind the claim. After overfilling the small pool at
time 0 and running cleanup at time 10 with cleanupInterval 5, every pooled
item is expired; the size classes are indeed emptied, but the expired
overflow item (lastUsed 0, payload cleared to [0]) is still in the overflow
collection, because cleanupPool assigns the filtered overflow array to a
local parameter, losing the removal. -/
theorem cleanup_leaves_expired_overflow_item :
    classCount (runOps (createBufferManager cleanupConfig) cleanupOps).pool.raw.sizeClasses
      = 0 ∧
    (runOps (createBufferManager cleanupConfig) cleanupOps).pool.raw.overflow =
      [{ buffer := [0], size := 1, lastUsed := 0 }] ∧
    isExpired cleanupConfig 10 0 = true :=
  ⟨rfl, rfl, rfl⟩

/-- C3: resizePool raises the validation error when newSize exceeds
maxPoolSize (second conjunct), but instead of terminating with the bound
established it never terminates whenever the pool holds more items than
newSize: on the manager holding a single pooled raw item, resizing the raw
pool to 0 loops forever (modelled as exhausting every fuel bound), because
the while guard compares newSize against a count snapshot that the loop
never updates (and eviction from the overflow is itself lost to a local
variable). -/
theorem resizePool_nonterminating (fuel : Nat) (now : Int) :
    resizePool oneItemManager .raw 0 now fuel = .ok none ∧
    resizePool oneItemManager .raw 3 now fuel =
      .error (.validationError "Pool size cannot exceed") :=
  ⟨resizePool_raw_diverges oneItemManager 0 now fuel (by decide) (by decide), rfl⟩

/-- C4: the code slip behind the claim. On the shape manager, acquiring a
2x1 cell buffer returns a one-row grid (third conjunct); after releasing
it, acquiring a 1x2 cell buffer recycles the pooled grid from the shared
size class of capacity 2 and returns a buffer that declares width 1 and
height 2 but whose grid is the pooled 1-row-by-2-column grid instead of
height rows by width columns. -/
theorem acquire_recycled_cell_shape_mismatch :
    acquireBuffer shapeManager .cell 2 1 0 = .ok (cellBuf21, shapeManager) ∧
    acquireBuffer shapeManagerPooled .cell 1 2 5 =
      .ok ({ type := .cell, width := 1, height := 2,
             data := .cell [[blankCell, blankCell]],
             metadata := { isPooled := true, lastUsed := 5, createdAt := 5 } },
           shapeManager) ∧
    ([[blankCell, blankCell]] : List (List Cell)).length = 1 :=
  ⟨rfl, rfl, rfl⟩

/-- C5, counterexample: the raw round-trip does not return the written
bytes when more than one byte is written. Writing [7, 9] at (0, 0) of a
valid 2x2 raw buffer succeeds, but reading (0, 0) back returns the one-byte
slice [7], not [7, 9]. -/
theorem roundtrip_raw_multibyte_counterexample :
    writeToBuffer rawBuf4 0 0 (.rawData [7, 9]) 1 = .ok rawBuf4Written ∧
    readFromBuffer rawBuf4Written 0 0 2 =
      .ok (some (.rawData [7]),
        { rawBuf4Written with
          metadata := { isPooled := true, lastUsed := 2, createdAt := 0 } }) ∧
    BufferValue.rawData [7] ≠ BufferValue.rawData [7, 9] :=
  ⟨rfl, rfl, by decide⟩

/-- C8, counterexample: a successful raw write is not confined to one
logical unit at offset y*width+x. Writing the two bytes [5, 6] at (0, 1)
of an 8-byte 2x2 raw buffer changes offsets 4 and 5 (the source computes
(y*width+x)*data.length = 4), although the claim confines the write to the
single offset y*width+x = 2; in particular offset 4, outside the claimed
one-unit range, changes from 0 to 5. -/
theorem raw_write_extent_counterexample :
    writeToBuffer rawBuf8 0 1 (.rawData [5, 6]) 1 = .ok rawBuf8Written ∧
    rawBuf8Written.data = .raw [0, 0, 0, 0, 5, 6, 0, 0] ∧
    ((1 : Int) * rawBuf8.width + 0) = 2 ∧
    ([0, 0, 0, 0, 5, 6, 0, 0] : List Int)[4]? = some 5 ∧
    (List.replicate 8 (0 : Int))[4]? = some 0 :=
  ⟨rfl, rfl, by decide, rfl, rfl⟩

/-- C6: error asymmetry at the bounds. For every buffer and every
out-of-bounds coordinate pair (x negative, y negative, x at least width or
y at least height; non-integer coordinates have no counterpart in the Int
model), writeToBuffer raises the out-of-bounds validation error before
touching any data, so the buffer is unchanged, while readFromBuffer catches
the same validation error and returns null (ok none) with the buffer
untouched. -/
theorem write_read_bounds_asymmetry (b : UnifiedBuffer) (x y : Int) (v : BufferValue)
    (now now2 : Int) (h : x < 0 ∨ y < 0 ∨ b.width ≤ x ∨ b.height ≤ y) :
    writeToBuffer b x y v now =
      .error (.validationError "Buffer access out of bounds") ∧
    readFromBuffer b x y now2 = .ok (none, b) := by
  have hv : validateBufferAccess b x y =
      .error (.validationError "Buffer access out of bounds") := by
    unfold validateBufferAccess
    rw [if_pos h]
  exact ⟨by unfold writeToBuffer; rw [hv], by unfold readFromBuffer; rw [hv]⟩

/-- C6, witness at x = width on a concrete valid 2x2 raw buffer. -/
theorem write_read_bounds_asymmetry_witness :
    writeToBuffer rawBuf4 2 0 (.rawData [1]) 1 =
      .error (.validationError "Buffer access out of bounds") ∧
    readFromBuffer rawBuf4 2 0 2 = .ok (none, rawBuf4) :=
  write_read_bounds_asymmetry rawBuf4 2 0 (.rawData [1]) 1 2 (by decide)

/-- C9: type-mismatch rejection. For every buffer and in-bounds (x, y),
writing a byte sequence into a cell buffer fails the isCellData guard and
raises the Invalid cell data format BufferError, and writing a Cell into a
raw buffer fails the isRawData guard and raises the Invalid raw data format
BufferError; in both cases the error is raised before any mutation, so the
data is never modified and the value never coerced. -/
theorem write_type_mismatch_rejected (b : UnifiedBuffer) (x y now : Int)
    (hx0 : 0 ≤ x) (hxw : x < b.width) (hy0 : 0 ≤ y) (hyh : y < b.height) :
    (∀ bytes : List Int, isCellBuffer b = true →
      writeToBuffer b x y (.rawData bytes) now =
        .error (.bufferError "Invalid cell data format")) ∧
    (∀ c : Cell, isRawBuffer b = true →
      writeToBuffer b x y (.cellData c) now =
        .error (.bufferError "Invalid raw data format")) := by
  have hcond : ¬ (x < 0 ∨ y < 0 ∨ b.width ≤ x ∨ b.height ≤ y) := by
    push_neg
    exact ⟨hx0, hy0, hxw, hyh⟩
  have hv : validateBufferAccess b x y = .ok () := by
    unfold validateBufferAccess
    rw [if_neg hcond]
  obtain ⟨type, width, height, data, metadata⟩ := b
  refine ⟨fun bytes hcb => ?_, fun c hrb => ?_⟩
  · cases type <;> cases data <;>
      first
      | (unfold writeToBuffer; rw [hv]; done)
      | simp [isCellBuffer] at hcb
  · cases type <;> cases data <;>
      first
      | (unfold writeToBuffer; rw [hv]; done)
      | simp [isRawBuffer] at hrb

/-- C9, witness on concrete cell and raw buffers at the in-bounds
coordinate (1, 1). -/
theorem write_type_mismatch_rejected_witness :
    writeToBuffer cellBuf32 1 1 (.rawData [1]) 3 =
      .error (.bufferError "Invalid cell data format") ∧
    writeToBuffer rawBuf4 1 1 (.cellData blankCell) 3 =
      .error (.bufferError "Invalid raw data format") :=
  ⟨(write_type_mismatch_rejected cellBuf32 1 1 3 (by decide) (by decide) (by decide)
      (by decide)).1 [1] (by decide),
   (write_type_mismatch_rejected rawBuf4 1 1 3 (by decide) (by decide) (by decide)
      (by decide)).2 blankCell (by decide)⟩

/-- Helper: reading back the written range of a Uint8Array.set. -/
theorem uint8ArraySet_readback (l v : List Int) (o : Nat) (h : o + v.length ≤ l.length) :
    ((uint8ArraySet l v o).drop o).take v.length = v := by
  unfold uint8ArraySet
  have hlen : (l.take o).length = o := by
    rw [List.length_take]
    omega
  rw [List.append_assoc, List.drop_append_of_le_length (le_of_eq hlen.symm),
    List.drop_eq_nil_of_le (le_of_eq hlen), List.nil_append, List.take_left]

/-- Helper: Uint8Array.set leaves every byte outside the written range
unchanged. -/
theorem uint8ArraySet_outside (l v : List Int) (o i : Nat) (h : o + v.length ≤ l.length)
    (hi : i < o ∨ o + v.length ≤ i) :
    (uint8ArraySet l v o)[i]? = l[i]? := by
  unfold uint8ArraySet
  have hlen : (l.take o).length = o := by
    rw [List.length_take]
    omega
  rcases hi with hi | hi
  · rw [List.append_assoc, List.getElem?_append, if_pos (by omega),
      List.getElem?_take, if_pos hi]
  · rw [List.append_assoc, List.getElem?_append_right (by omega), hlen,
      List.getElem?_append_right (by omega), List.getElem?_drop]
    congr 1
    omega

/-- C5, amended: for every shape-consistent buffer and in-bounds (x, y), a
write followed by a read at (x, y) returns the whole written Cell for cell
buffers; for raw buffers readFromBuffer returns the one-byte slice at
offset y*width+x, so the round-trip returns the written bytes exactly when
a single byte was written (the single-byte case proved here; the multi-byte
failure is the counterexample above). -/
theorem roundtrip_amended (b : UnifiedBuffer) (x y now now2 : Int)
    (hb : validBuffer b = true) (hx0 : 0 ≤ x) (hxw : x < b.width)
    (hy0 : 0 ≤ y) (hyh : y < b.height) :
    (b.type = .cell → ∀ c : Cell, ∃ b2 b3,
      writeToBuffer b x y (.cellData c) now = .ok b2 ∧
      readFromBuffer b2 x y now2 = .ok (some (.cellData c), b3)) ∧
    (b.type = .raw → ∀ v : Int, ∃ b2 b3,
      writeToBuffer b x y (.rawData [v]) now = .ok b2 ∧
      readFromBuffer b2 x y now2 = .ok (some (.rawData [v]), b3)) := by
  obtain ⟨type, width, height, data, metadata⟩ := b
  dsimp only at hxw hyh hb ⊢
  have hcond : ¬ (x < 0 ∨ y < 0 ∨ width ≤ x ∨ height ≤ y) := by
    push_neg
    exact ⟨hx0, hy0, hxw, hyh⟩
  constructor
  · rintro rfl c
    cases data with
    | raw bytes => simp [validBuffer] at hb
    | cell grid =>
      rw [validBuffer] at hb
      simp only [Bool.and_eq_true, List.all_eq_true, decide_eq_true_eq] at hb
      obtain ⟨hrows, hcols⟩ := hb
      have hyn : y.toNat < grid.length := by omega
      have hxn : x.toNat < (grid[y.toNat]).length := by
        have := hcols (grid[y.toNat]) (List.getElem_mem hyn)
        omega
      refine ⟨{ type := .cell, width := width, height := height,
                data := .cell (grid.set y.toNat ((grid[y.toNat]).set x.toNat c)),
                metadata := { metadata with lastUsed := now } },
              { type := .cell, width := width, height := height,
                data := .cell (grid.set y.toNat ((grid[y.toNat]).set x.toNat c)),
                metadata := { metadata with lastUsed := now2 } }, ?_, ?_⟩
      · unfold writeToBuffer validateBufferAccess
        rw [if_neg hcond]
        dsimp only
        rw [List.getElem?_eq_getElem hyn]
      · unfold readFromBuffer validateBufferAccess
        dsimp only
        rw [if_neg hcond]
        dsimp only
        rw [List.getElem?_set_eq_of_lt _ (by simpa using hyn)]
        dsimp only
        rw [List.getElem?_set_eq_of_lt c hxn]
  · rintro rfl v
    cases data with
    | cell grid => simp [validBuffer] at hb
    | raw bytes =>
      rw [validBuffer] at hb
      simp only [decide_eq_true_eq] at hb
      have hwpos : 0 < width := by omega
      have ho0 : 0 ≤ y * width + x := by
        have := mul_nonneg hy0 (le_of_lt hwpos)
        omega
      have holt : y * width + x < width * height := by nlinarith
      have hofit : (y * width + x).toNat + 1 ≤ bytes.length := by
        have hlen : y * width + x < (bytes.length : Int) := lt_of_lt_of_le holt hb
        omega
      have hread := uint8ArraySet_readback bytes [v] (y * width + x).toNat
        (by simpa using hofit)
      refine ⟨{ type := .raw, width := width, height := height,
                data := .raw (uint8ArraySet bytes [v] (y * width + x).toNat),
                metadata := { metadata with lastUsed := now } },
              { type := .raw, width := width, height := height,
                data := .raw (uint8ArraySet bytes [v] (y * width + x).toNat),
                metadata := { metadata with lastUsed := now2 } }, ?_, ?_⟩
      · unfold writeToBuffer validateBufferAccess
        rw [if_neg hcond]
        simp only [List.length_cons, List.length_nil, Nat.cast_one, mul_one,
          Nat.zero_add]
        rw [if_pos hofit]
      · unfold readFromBuffer validateBufferAccess
        dsimp only
        rw [if_neg hcond]
        dsimp only
        simp only [List.length_cons, List.length_nil] at hread
        rw [hread]

/-- C5, witness: the amended round-trip on the concrete 3x2 cell buffer and
the concrete 2x2 raw buffer at (1, 1). -/
theorem roundtrip_amended_witness :
    (∃ b2 b3, writeToBuffer cellBuf32 1 1 (.cellData { char := "X" }) 3 = .ok b2 ∧
      readFromBuffer b2 1 1 4 = .ok (some (.cellData { char := "X" }), b3)) ∧
    (∃ b2 b3, writeToBuffer rawBuf4 1 1 (.rawData [9]) 3 = .ok b2 ∧
      readFromBuffer b2 1 1 4 = .ok (some (.rawData [9]), b3)) :=
  ⟨(roundtrip_amended cellBuf32 1 1 3 4 (by decide) (by decide)
      (by decide) (by decide) (by decide)).1 rfl { char := "X" },
   (roundtrip_amended rawBuf4 1 1 3 4 (by decide) (by decide)
      (by decide) (by decide) (by decide)).2 rfl 9⟩

/-- C8, amended: a successful raw write stores exactly data.length bytes,
starting at the scaled offset (y*width+x)*data.length (not at y*width+x),
and every byte outside that range is unchanged; the claimed behavior is the
special case data.length = 1. -/
theorem raw_write_extent_amended (b b2 : UnifiedBuffer) (x y now : Int)
    (source bytes : List Int) (hdata : b.data = .raw bytes)
    (hw : writeToBuffer b x y (.rawData source) now = .ok b2) :
    b2.data = .raw
      (uint8ArraySet bytes source ((y * b.width + x) * (source.length : Int)).toNat) ∧
    ∀ i : Nat,
      (i < ((y * b.width + x) * (source.length : Int)).toNat ∨
        ((y * b.width + x) * (source.length : Int)).toNat + source.length ≤ i) →
      (uint8ArraySet bytes source
          ((y * b.width + x) * (source.length : Int)).toNat)[i]? = bytes[i]? := by
  unfold writeToBuffer at hw
  obtain ⟨type, width, height, data, metadata⟩ := b
  simp only at hdata hw ⊢
  subst hdata
  cases hval : validateBufferAccess
      { type := type, width := width, height := height,
        data := .raw bytes, metadata := metadata } x y with
  | error e => rw [hval] at hw; exact absurd hw (by simp)
  | ok u =>
    rw [hval] at hw
    dsimp only at hw
    cases type with
    | cell => exact absurd hw (by simp)
    | raw =>
      dsimp only at hw
      by_cases hg : ((y * width + x) * (source.length : Int)).toNat + source.length ≤
        bytes.length
      · rw [if_pos hg] at hw
        cases hw
        exact ⟨rfl, fun i hi => uint8ArraySet_outside bytes source _ i hg hi⟩
      · rw [if_neg hg] at hw
        exact absurd hw (by simp)

/-- C8, witness: the amended statement at the concrete two-byte write of
the counterexample scenario. -/
theorem raw_write_extent_amended_witness :
    rawBuf8Written.data = .raw
      (uint8ArraySet (List.replicate 8 0) [5, 6]
        ((1 * rawBuf8.width + 0) * ((2 : Nat) : Int)).toNat) ∧
    ∀ i : Nat,
      (i < ((1 * rawBuf8.width + 0) * ((2 : Nat) : Int)).toNat ∨
        ((1 * rawBuf8.width + 0) * ((2 : Nat) : Int)).toNat + 2 ≤ i) →
      (uint8ArraySet (List.replicate 8 0) [5, 6]
          ((1 * rawBuf8.width + 0) * ((2 : Nat) : Int)).toNat)[i]? =
        (List.replicate 8 (0 : Int))[i]? :=
  raw_write_extent_amended rawBuf8 rawBuf8Written 0 1 1 [5, 6]
    (List.replicate 8 0) rfl rfl

/-- Helper: the raw acquire path never touches the active registry. -/
theorem acquireRaw_active (m : BufferManager) (w h s now : Int) :
    ((acquireRaw m w h s now).2).active = m.active := by
  unfold acquireRaw
  repeat' (first | rfl | split | dsimp only)

/-- Helper: the cell acquire path never touches the active registry. -/
theorem acquireCell_active (m : BufferManager) (w h s now : Int) :
    ((acquireCell m w h s now).2).active = m.active := by
  unfold acquireCell
  repeat' (first | rfl | split | dsimp only)

/-- Helper: pooling a released raw payload never touches the active
registry. -/
theorem releaseRawPayload_active (m : BufferManager) (item : RawPoolItem) (s : Int) :
    (releaseRawPayload m item s).active = m.active := by
  unfold releaseRawPayload
  repeat' (first | rfl | split | dsimp only)

/-- Helper: pooling a released cell payload never touches the active
registry. -/
theorem releaseCellPayload_active (m : BufferManager) (item : CellPoolItem) (s : Int) :
    (releaseCellPayload m item s).active = m.active := by
  unfold releaseCellPayload
  repeat' (first | rfl | split | dsimp only)

/-- Helper: every manager operation maps an empty active registry to an
empty active registry; acquireBuffer never inserts, releaseBuffer and
cleanup only remove. -/
theorem applyOp_active_nil (m : BufferManager) (op : ManagerOp) (h : m.active = []) :
    (applyOp m op).active = [] := by
  cases op with
  | acquireOp t w h2 now =>
    unfold applyOp
    dsimp only
    cases hv : acquireBuffer m t w h2 now with
    | error e => exact h
    | ok res =>
      obtain ⟨b0, m2⟩ := res
      dsimp only
      unfold acquireBuffer at hv
      cases hvd : validateBufferDimensions w h2 with
      | error e => rw [hvd] at hv; exact absurd hv (by simp)
      | ok u =>
        rw [hvd] at hv
        dsimp only at hv
        cases t with
        | raw =>
          have h2eq : m2 = (acquireRaw m w h2 (w * h2) now).2 :=
            (congrArg Prod.snd (Except.ok.inj hv)).symm
          rw [h2eq, acquireRaw_active]
          exact h
        | cell =>
          have h2eq : m2 = (acquireCell m w h2 (w * h2) now).2 :=
            (congrArg Prod.snd (Except.ok.inj hv)).symm
          rw [h2eq, acquireCell_active]
          exact h
  | releaseOp b now =>
    unfold applyOp
    dsimp only
    obtain ⟨type, width, height, data, metadata⟩ := b
    unfold releaseBuffer
    split
    · exact h
    · cases type <;> cases data <;>
        dsimp only <;>
        simp [releaseRawPayload_active, releaseCellPayload_active, h, removeFromActive]
  | cleanupOp now =>
    unfold applyOp
    dsimp only
    unfold cleanup
    dsimp only
    rw [h]
    rfl

/-- C10: the active registry is never populated. acquireBuffer returns
buffers without inserting them into manager.active, so after every sequence
of acquireBuffer, releaseBuffer and cleanup calls on a freshly created
manager the active registry is empty; in particular the active-entry
removal of releaseBuffer and the active-entry expiration of cleanup never
find anything to remove. -/
theorem active_registry_never_populated (cfg : BufferManagerConfig)
    (ops : List ManagerOp) :
    (runOps (createBufferManager cfg) ops).active = [] := by
  suffices h : ∀ m : BufferManager, m.active = [] → (runOps m ops).active = [] from
    h _ rfl
  unfold runOps
  induction ops with
  | nil => intro m h; exact h
  | cons op rest ih => intro m h; exact ih _ (applyOp_active_nil m op h)

/-- Helper: freshly created size classes have empty shelves. -/
theorem createSizeClassesGo_buffers_nil :
    ∀ (fuel : Nat) (size max : Int), ∀ sc ∈ createSizeClassesGo fuel size max,
      sc.buffers = [] := by
  intro fuel
  induction fuel with
  | zero => intro size max sc hsc; simp [createSizeClassesGo] at hsc
  | succ n ih =>
    intro size max sc hsc
    unfold createSizeClassesGo at hsc
    split at hsc
    · rcases List.mem_cons.mp hsc with rfl | hmem
      · rfl
      · exact ih _ _ sc hmem
    · simp at hsc

/-- Helper: freshly created size classes hold only blank items (vacuously,
the shelves being empty). -/
theorem classesBlank_createSizeClasses (config : BufferManagerConfig) :
    classesBlank (createSizeClasses config) := by
  intro sc hsc item hitem
  unfold createSizeClasses at hsc
  rw [createSizeClassesGo_buffers_nil _ _ _ sc hsc] at hitem
  simp at hitem

/-- Helper: a fresh manager has a blank pool. -/
theorem poolBlank_createBufferManager (config : BufferManagerConfig) :
    poolBlank (createBufferManager config) := by
  refine ⟨classesBlank_createSizeClasses config, ?_,
    classesBlank_createSizeClasses config, ?_⟩ <;>
    intro item hitem <;> simp [createBufferManager] at hitem

/-- Helper: popping an item from a size class preserves blankness of the
remaining pooled items. -/
theorem classesBlank_pop (classes : List SizeClass) (s : Int)
    (h : classesBlank classes) : classesBlank (popFromSizeClass classes s).2 := by
  unfold popFromSizeClass
  cases hidx : classes.findIdx? (fun sc => s ≤ sc.size) with
  | none => exact h
  | some i =>
    dsimp only
    cases hcls : classes[i]? with
    | none => exact h
    | some sc =>
      dsimp only
      cases hlast : sc.buffers.getLast? with
      | none => exact h
      | some item =>
        dsimp only
        intro sc2 hsc2 it hit
        rcases List.mem_or_eq_of_mem_set hsc2 with hmem | rfl
        · exact h sc2 hmem it hit
        · exact h sc (List.getElem?_mem hcls) it
            (List.Sublist.mem hit (List.dropLast_sublist sc.buffers))

/-- Helper: a popped item was one of the pooled items. -/
theorem popFromSizeClass_item_mem (classes : List SizeClass) (s : Int) (item : PoolItem)
    (h : (popFromSizeClass classes s).1 = some item) :
    ∃ sc ∈ classes, item ∈ sc.buffers := by
  unfold popFromSizeClass at h
  cases hidx : classes.findIdx? (fun sc => s ≤ sc.size) with
  | none => rw [hidx] at h; exact absurd h (by simp)
  | some i =>
    rw [hidx] at h
    dsimp only at h
    cases hcls : classes[i]? with
    | none => rw [hcls] at h; exact absurd h (by simp)
    | some sc =>
      rw [hcls] at h
      dsimp only at h
      cases hlast : sc.buffers.getLast? with
      | none => rw [hlast] at h; exact absurd h (by simp)
      | some it =>
        rw [hlast] at h
        simp only at h
        refine ⟨sc, List.getElem?_mem hcls, ?_⟩
        rw [← Option.some.inj h]
        exact List.mem_of_mem_getLast? hlast

/-- Helper: the best-so-far fold of the overflow scans returns either its
starting accumulator or a member of the list. -/
theorem pickFoldl_mem {α : Type} (f : Option α → α → Option α)
    (hf : ∀ acc a, f acc a = acc ∨ f acc a = some a) :
    ∀ (l : List α) (acc : Option α) (it : α), l.foldl f acc = some it →
      acc = some it ∨ it ∈ l := by
  intro l
  induction l with
  | nil => intro acc it h; exact Or.inl h
  | cons a rest ih =>
    intro acc it h
    rcases ih (f acc a) it h with hacc | hmem
    · rcases hf acc a with heq | heq
      · rw [heq] at hacc
        exact Or.inl hacc
      · rw [heq] at hacc
        exact Or.inr (List.mem_cons.mpr (Or.inl (Option.some.inj hacc).symm))
    · exact Or.inr (List.mem_cons_of_mem a hmem)

/-- Helper: the overflow pick for raw buffers returns a member of the
overflow. -/
theorem pickOverflowRaw_mem (overflow : List RawPoolItem) (s : Int) (item : RawPoolItem)
    (h : pickOverflowRaw overflow s = some item) : item ∈ overflow := by
  unfold pickOverflowRaw at h
  rcases pickFoldl_mem _ (fun acc a => by
      cases acc with
      | none => exact Or.inr rfl
      | some b =>
        dsimp only
        split
        · exact Or.inr rfl
        · exact Or.inl rfl)
    _ none item h with hacc | hmem
  · exact absurd hacc (by simp)
  · exact List.mem_of_mem_filter hmem

/-- Helper: the overflow pick for cell buffers returns a member of the
overflow. -/
theorem pickOverflowCell_mem (overflow : List CellPoolItem) (s : Int) (item : CellPoolItem)
    (h : pickOverflowCell overflow s = some item) : item ∈ overflow := by
  unfold pickOverflowCell at h
  rcases pickFoldl_mem _ (fun acc a => by
      cases acc with
      | none => exact Or.inr rfl
      | some b =>
        dsimp only
        split
        · exact Or.inr rfl
        · exact Or.inl rfl)
    _ none item h with hacc | hmem
  · exact absurd hacc (by simp)
  · exact List.mem_of_mem_filter hmem

/-- Helper: pushing a blank item into a size class preserves blankness. -/
theorem classesBlank_push (classes : List SizeClass) (i : Nat) (item : PoolItem)
    (hcb : classesBlank classes) (hib : poolItemBlank item) :
    classesBlank (pushIntoClass classes i item) := by
  unfold pushIntoClass modifyIdx
  cases hcls : classes[i]? with
  | none => exact hcb
  | some sc =>
    intro sc2 hsc2 it hit
    rcases List.mem_or_eq_of_mem_set hsc2 with hmem | rfl
    · exact hcb sc2 hmem it hit
    · rcases List.mem_append.mp hit with h1 | h2
      · exact hcb sc (List.getElem?_mem hcls) it h1
      · rw [List.mem_singleton.mp h2]
        exact hib

/-- Helper: on a blank pool, the raw acquire path returns a buffer with a
blank payload and leaves the pool blank. -/
theorem acquireRaw_poolBlank (m : BufferManager) (w h s now : Int) (hp : poolBlank m) :
    bufferBlank (acquireRaw m w h s now).1 ∧ poolBlank (acquireRaw m w h s now).2 := by
  obtain ⟨h1, h2, h3, h4⟩ := hp
  unfold acquireRaw
  rcases hpop : popFromSizeClass m.pool.raw.sizeClasses s with ⟨item?, classes2⟩
  have hcb2 : classesBlank classes2 := by
    have hh := classesBlank_pop m.pool.raw.sizeClasses s h1
    rw [hpop] at hh
    exact hh
  dsimp only
  cases item? with
  | some pi =>
    cases pi with
    | raw item =>
      dsimp only
      refine ⟨?_, hcb2, h2, h3, h4⟩
      obtain ⟨sc, hsc, hit⟩ := popFromSizeClass_item_mem m.pool.raw.sizeClasses s
        (.raw item) (by rw [hpop])
      exact h1 sc hsc _ hit
    | cell item =>
      dsimp only
      cases hov : pickOverflowRaw m.pool.raw.overflow s with
      | some optimal =>
        dsimp only
        refine ⟨h2 optimal (pickOverflowRaw_mem _ _ _ hov), hcb2, ?_, h3, h4⟩
        exact fun it hit => h2 it (List.erase_subset _ _ hit)
      | none =>
        dsimp only
        exact ⟨fun v hv => List.eq_of_mem_replicate hv, hcb2, h2, h3, h4⟩
  | none =>
    dsimp only
    cases hov : pickOverflowRaw m.pool.raw.overflow s with
    | some optimal =>
      dsimp only
      refine ⟨h2 optimal (pickOverflowRaw_mem _ _ _ hov), hcb2, ?_, h3, h4⟩
      exact fun it hit => h2 it (List.erase_subset _ _ hit)
    | none =>
      dsimp only
      exact ⟨fun v hv => List.eq_of_mem_replicate hv, hcb2, h2, h3, h4⟩

/-- Helper: a fresh cell grid is blank. -/
theorem gridBlank_replicate (w h : Nat) :
    gridBlank (List.replicate h (List.replicate w blankCell)) := by
  intro row hrow c hc
  rw [List.eq_of_mem_replicate hrow] at hc
  exact List.eq_of_mem_replicate hc

/-- Helper: on a blank pool, the cell acquire path returns a buffer with a
blank payload and leaves the pool blank. -/
theorem acquireCell_poolBlank (m : BufferManager) (w h s now : Int) (hp : poolBlank m) :
    bufferBlank (acquireCell m w h s now).1 ∧ poolBlank (acquireCell m w h s now).2 := by
  obtain ⟨h1, h2, h3, h4⟩ := hp
  unfold acquireCell
  rcases hpop : popFromSizeClass m.pool.cell.sizeClasses s with ⟨item?, classes2⟩
  have hcb2 : classesBlank classes2 := by
    have hh := classesBlank_pop m.pool.cell.sizeClasses s h3
    rw [hpop] at hh
    exact hh
  dsimp only
  cases item? with
  | some pi =>
    cases pi with
    | cell item =>
      dsimp only
      refine ⟨?_, h1, h2, hcb2, h4⟩
      obtain ⟨sc, hsc, hit⟩ := popFromSizeClass_item_mem m.pool.cell.sizeClasses s
        (.cell item) (by rw [hpop])
      exact h3 sc hsc _ hit
    | raw item =>
      dsimp only
      cases hov : pickOverflowCell m.pool.cell.overflow s with
      | some optimal =>
        dsimp only
        refine ⟨h4 optimal (pickOverflowCell_mem _ _ _ hov), h1, h2, hcb2, ?_⟩
        exact fun it hit => h4 it (List.erase_subset _ _ hit)
      | none =>
        dsimp only
        exact ⟨gridBlank_replicate _ _, h1, h2, hcb2, h4⟩
  | none =>
    dsimp only
    cases hov : pickOverflowCell m.pool.cell.overflow s with
    | some optimal =>
      dsimp only
      refine ⟨h4 optimal (pickOverflowCell_mem _ _ _ hov), h1, h2, hcb2, ?_⟩
      exact fun it hit => h4 it (List.erase_subset _ _ hit)
    | none =>
      dsimp only
      exact ⟨gridBlank_replicate _ _, h1, h2, hcb2, h4⟩

/-- Helper: pooling a blank raw payload preserves pool blankness. -/
theorem releaseRawPayload_poolBlank (m : BufferManager) (item : RawPoolItem) (s : Int)
    (hp : poolBlank m) (hi : bytesBlank item.buffer) :
    poolBlank (releaseRawPayload m item s) := by
  obtain ⟨h1, h2, h3, h4⟩ := hp
  have hov : ∀ it ∈ m.pool.raw.overflow ++ [item], bytesBlank it.buffer := by
    intro it hit
    rcases List.mem_append.mp hit with hmem | hone
    · exact h2 it hmem
    · rw [List.mem_singleton.mp hone]
      exact hi
  unfold releaseRawPayload
  dsimp only
  cases hidx : m.pool.raw.sizeClasses.findIdx? (fun sc => s ≤ sc.size) with
  | some i =>
    dsimp only
    split
    · exact ⟨classesBlank_push _ i (.raw item) h1 hi, h2, h3, h4⟩
    · split
      · exact ⟨h1, hov, h3, h4⟩
      · exact ⟨h1, h2, h3, h4⟩
  | none =>
    dsimp only
    split
    · exact ⟨h1, hov, h3, h4⟩
    · exact ⟨h1, h2, h3, h4⟩

/-- Helper: pooling a blank cell payload preserves pool blankness. -/
theorem releaseCellPayload_poolBlank (m : BufferManager) (item : CellPoolItem) (s : Int)
    (hp : poolBlank m) (hi : gridBlank item.buffer) :
    poolBlank (releaseCellPayload m item s) := by
  obtain ⟨h1, h2, h3, h4⟩ := hp
  have hov : ∀ it ∈ m.pool.cell.overflow ++ [item], gridBlank it.buffer := by
    intro it hit
    rcases List.mem_append.mp hit with hmem | hone
    · exact h4 it hmem
    · rw [List.mem_singleton.mp hone]
      exact hi
  unfold releaseCellPayload
  dsimp only
  cases hidx : m.pool.cell.sizeClasses.findIdx? (fun sc => s ≤ sc.size) with
  | some i =>
    dsimp only
    split
    · exact ⟨h1, h2, classesBlank_push _ i (.cell item) h3 hi, h4⟩
    · split
      · exact ⟨h1, h2, h3, hov⟩
      · exact ⟨h1, h2, h3, h4⟩
  | none =>
    dsimp only
    split
    · exact ⟨h1, h2, h3, hov⟩
    · exact ⟨h1, h2, h3, h4⟩

/-- Helper: a cleared byte payload is blank. -/
theorem bytesBlank_replicate (n : Nat) : bytesBlank (List.replicate n 0) :=
  fun _ hv => List.eq_of_mem_replicate hv

/-- Helper: a cleared cell grid is blank. -/
theorem gridBlank_cleared (grid : List (List Cell)) :
    gridBlank (grid.map fun row => row.map fun _ => blankCell) := by
  intro row hrow c hc
  obtain ⟨row0, _, rfl⟩ := List.mem_map.mp hrow
  obtain ⟨c0, _, rfl⟩ := List.mem_map.mp hc
  rfl

/-- Helper: a cleanup pass preserves pool blankness (expired overflow
payloads are re-cleared in place, everything else is a filtered subset). -/
theorem cleanup_poolBlank (m : BufferManager) (now : Int) (hp : poolBlank m) :
    poolBlank (cleanup m now) := by
  obtain ⟨h1, h2, h3, h4⟩ := hp
  unfold cleanup
  refine ⟨?_, ?_, ?_, ?_⟩
  · intro sc2 hsc2 it hit
    unfold cleanupSizeClasses at hsc2
    obtain ⟨sc, hsc, rfl⟩ := List.mem_map.mp hsc2
    exact h1 sc hsc it (List.mem_of_mem_filter hit)
  · intro it hit
    unfold cleanupOverflowRaw at hit
    obtain ⟨it0, hit0, rfl⟩ := List.mem_map.mp hit
    split
    · exact bytesBlank_replicate _
    · exact h2 it0 hit0
  · intro sc2 hsc2 it hit
    unfold cleanupSizeClasses at hsc2
    obtain ⟨sc, hsc, rfl⟩ := List.mem_map.mp hsc2
    exact h3 sc hsc it (List.mem_of_mem_filter hit)
  · intro it hit
    unfold cleanupOverflowCell at hit
    obtain ⟨it0, hit0, rfl⟩ := List.mem_map.mp hit
    split
    · exact gridBlank_cleared _
    · exact h4 it0 hit0

/-- Helper: every manager operation preserves pool blankness. -/
theorem poolBlank_applyOp (m : BufferManager) (op : ManagerOp) (hp : poolBlank m) :
    poolBlank (applyOp m op) := by
  cases op with
  | acquireOp t w h2 now =>
    unfold applyOp
    dsimp only
    cases hv : acquireBuffer m t w h2 now with
    | error e => exact hp
    | ok res =>
      obtain ⟨b0, m2⟩ := res
      dsimp only
      unfold acquireBuffer at hv
      cases hvd : validateBufferDimensions w h2 with
      | error e => rw [hvd] at hv; exact absurd hv (by simp)
      | ok u =>
        rw [hvd] at hv
        dsimp only at hv
        cases t with
        | raw =>
          have heq : m2 = (acquireRaw m w h2 (w * h2) now).2 :=
            (congrArg Prod.snd (Except.ok.inj hv)).symm
          rw [heq]
          exact (acquireRaw_poolBlank m w h2 (w * h2) now hp).2
        | cell =>
          have heq : m2 = (acquireCell m w h2 (w * h2) now).2 :=
            (congrArg Prod.snd (Except.ok.inj hv)).symm
          rw [heq]
          exact (acquireCell_poolBlank m w h2 (w * h2) now hp).2
  | releaseOp b now =>
    unfold applyOp
    dsimp only
    obtain ⟨type, width, height, data, metadata⟩ := b
    unfold releaseBuffer
    split
    · exact hp
    · cases type <;> cases data <;> dsimp only
      · exact releaseRawPayload_poolBlank m _ _ hp (bytesBlank_replicate _)
      · exact hp
      · exact hp
      · exact releaseCellPayload_poolBlank m _ _ hp (gridBlank_cleared _)
  | cleanupOp now =>
    unfold applyOp
    dsimp only
    exact cleanup_poolBlank m now hp

/-- Helper: the pool of every reachable manager state is blank. -/
theorem poolBlank_runOps (cfg : BufferManagerConfig) (ops : List ManagerOp) :
    poolBlank (runOps (createBufferManager cfg) ops) := by
  suffices h : ∀ m : BufferManager, poolBlank m → poolBlank (runOps m ops) from
    h _ (poolBlank_createBufferManager cfg)
  unfold runOps
  induction ops with
  | nil => intro m h; exact h
  | cons op rest ih => intro m h; exact ih _ (poolBlank_applyOp m op h)

/-- C7: no stale data across sessions. On every manager reachable from
createBufferManager by any sequence of acquire, release and cleanup calls,
every pooled payload is blank (releaseBuffer clears the payload before
pooling it and cleanup re-clears expired payloads), and consequently every
buffer acquireBuffer returns, whether fresh or recycled from a size class
or the overflow, has an all-zero byte payload or an all-blank cell grid —
never content written during a previous session. -/
theorem no_stale_data_in_pool (cfg : BufferManagerConfig) (ops : List ManagerOp)
    (t : BufferType) (w h now : Int) (b : UnifiedBuffer) (m2 : BufferManager)
    (hacq : acquireBuffer (runOps (createBufferManager cfg) ops) t w h now =
      .ok (b, m2)) :
    bufferBlank b ∧ poolBlank (runOps (createBufferManager cfg) ops) := by
  have hp := poolBlank_runOps cfg ops
  refine ⟨?_, hp⟩
  unfold acquireBuffer at hacq
  cases hvd : validateBufferDimensions w h with
  | error e => rw [hvd] at hacq; exact absurd hacq (by simp)
  | ok u =>
    rw [hvd] at hacq
    dsimp only at hacq
    cases t with
    | raw =>
      have heq : b = (acquireRaw (runOps (createBufferManager cfg) ops) w h (w * h) now).1 :=
        (congrArg Prod.fst (Except.ok.inj hacq)).symm
      rw [heq]
      exact (acquireRaw_poolBlank _ w h (w * h) now hp).1
    | cell =>
      have heq : b = (acquireCell (runOps (createBufferManager cfg) ops) w h (w * h) now).1 :=
        (congrArg Prod.fst (Except.ok.inj hacq)).symm
      rw [heq]
      exact (acquireCell_poolBlank _ w h (w * h) now hp).1

/-- C7, witness: acquiring from the small manager holding one pooled raw
item recycles the cleared payload; the acquire succeeds, the returned
buffer is blank and the pool was blank. -/
theorem no_stale_data_in_pool_witness :
    acquireBuffer oneItemManager .raw 1 1 7 =
      .ok (createRawBuffer [0] 1 1 7, smallManager) ∧
    (bufferBlank (createRawBuffer [0] 1 1 7) ∧ poolBlank oneItemManager) :=
  ⟨rfl, no_stale_data_in_pool smallConfig [.releaseOp freshRaw11 0] .raw 1 1 7
    (createRawBuffer [0] 1 1 7) smallManager rfl⟩

/-- Helper: freshly created size classes hold no items. -/
theorem classCount_createSizeClassesGo (fuel : Nat) :
    ∀ (size max : Int), classCount (createSizeClassesGo fuel size max) = 0 := by
  induction fuel with
  | zero => intro size max; rfl
  | succ n ih =>
    intro size max
    unfold createSizeClassesGo
    split
    · simp only [classCount, List.map_cons, List.sum_cons, List.length_nil,
        Nat.zero_add]
      exact ih (size * 2) max
    · rfl

/-- Helper: replacing one size class by one with at most k more items
raises the total count by at most k. -/
theorem classCount_set_le_add (classes : List SizeClass) (i : Nat) (sc2 : SizeClass)
    (k : Nat)
    (h : ∀ sc, classes[i]? = some sc → sc2.buffers.length ≤ sc.buffers.length + k) :
    classCount (classes.set i sc2) ≤ classCount classes + k := by
  induction classes generalizing i with
  | nil => simp [classCount]
  | cons c rest ih =>
    cases i with
    | zero =>
      have hc := h c (by simp)
      simp only [List.set_cons_zero, classCount, List.map_cons, List.sum_cons]
      omega
    | succ n =>
      have hr := ih n (fun sc hsc => h sc (by simpa using hsc))
      simp only [List.set_cons_succ, classCount, List.map_cons, List.sum_cons] at hr ⊢
      omega

/-- Helper: popping from a size class never increases the total count. -/
theorem classCount_pop_le (classes : List SizeClass) (s : Int) :
    classCount (popFromSizeClass classes s).2 ≤ classCount classes := by
  unfold popFromSizeClass
  cases hidx : classes.findIdx? (fun sc => s ≤ sc.size) with
  | none => exact le_refl _
  | some i =>
    dsimp only
    cases hcls : classes[i]? with
    | none => exact le_refl _
    | some sc =>
      dsimp only
      cases hlast : sc.buffers.getLast? with
      | none => exact le_refl _
      | some item =>
        dsimp only
        have hs := classCount_set_le_add classes i
          { sc with buffers := sc.buffers.dropLast } 0
          (fun sc0 hsc0 => by
            rw [hcls] at hsc0
            cases Option.some.inj hsc0
            simp only [List.length_dropLast]
            omega)
        simpa using hs

/-- Helper: pushing into a size class raises the total count by at most
one. -/
theorem classCount_push_le (classes : List SizeClass) (i : Nat) (item : PoolItem) :
    classCount (pushIntoClass classes i item) ≤ classCount classes + 1 := by
  unfold pushIntoClass modifyIdx
  cases hcls : classes[i]? with
  | none => exact Nat.le_succ _
  | some sc =>
    exact classCount_set_le_add classes i { sc with buffers := sc.buffers ++ [item] } 1
      (fun sc0 hsc0 => by
        rw [hcls] at hsc0
        cases Option.some.inj hsc0
        simp)

/-- Helper: a cleanup pass never increases a size-class count. -/
theorem classCount_cleanup_le (config : BufferManagerConfig) (now : Int)
    (classes : List SizeClass) :
    classCount (cleanupSizeClasses config now classes) ≤ classCount classes := by
  unfold cleanupSizeClasses
  induction classes with
  | nil => simp [classCount]
  | cons c rest ih =>
    simp only [List.map_cons, classCount, List.sum_cons] at ih ⊢
    have := List.length_filter_le
      (fun item => !(isExpired config now item.lastUsed)) c.buffers
    omega

/-- Helper: the raw acquire path only removes pooled items and touches
nothing else. -/
theorem acquireRaw_counts (m : BufferManager) (w h s now : Int) :
    classCount ((acquireRaw m w h s now).2).pool.raw.sizeClasses ≤
      classCount m.pool.raw.sizeClasses ∧
    ((acquireRaw m w h s now).2).pool.raw.overflow.length ≤
      m.pool.raw.overflow.length ∧
    ((acquireRaw m w h s now).2).pool.cell = m.pool.cell ∧
    ((acquireRaw m w h s now).2).config = m.config := by
  have hpople := classCount_pop_le m.pool.raw.sizeClasses s
  unfold acquireRaw
  rcases hpop : popFromSizeClass m.pool.raw.sizeClasses s with ⟨item?, classes2⟩
  rw [hpop] at hpople
  dsimp only
  cases item? with
  | some pi =>
    cases pi with
    | raw item => exact ⟨hpople, le_refl _, rfl, rfl⟩
    | cell item =>
      dsimp only
      cases hov : pickOverflowRaw m.pool.raw.overflow s with
      | some optimal =>
        exact ⟨hpople, (List.erase_sublist optimal m.pool.raw.overflow).length_le,
          rfl, rfl⟩
      | none => exact ⟨hpople, le_refl _, rfl, rfl⟩
  | none =>
    dsimp only
    cases hov : pickOverflowRaw m.pool.raw.overflow s with
    | some optimal =>
      exact ⟨hpople, (List.erase_sublist optimal m.pool.raw.overflow).length_le,
        rfl, rfl⟩
    | none => exact ⟨hpople, le_refl _, rfl, rfl⟩

/-- Helper: the cell acquire path only removes pooled items and touches
nothing else. -/
theorem acquireCell_counts (m : BufferManager) (w h s now : Int) :
    classCount ((acquireCell m w h s now).2).pool.cell.sizeClasses ≤
      classCount m.pool.cell.sizeClasses ∧
    ((acquireCell m w h s now).2).pool.cell.overflow.length ≤
      m.pool.cell.overflow.length ∧
    ((acquireCell m w h s now).2).pool.raw = m.pool.raw ∧
    ((acquireCell m w h s now).2).config = m.config := by
  have hpople := classCount_pop_le m.pool.cell.sizeClasses s
  unfold acquireCell
  rcases hpop : popFromSizeClass m.pool.cell.sizeClasses s with ⟨item?, classes2⟩
  rw [hpop] at hpople
  dsimp only
  cases item? with
  | some pi =>
    cases pi with
    | cell item => exact ⟨hpople, le_refl _, rfl, rfl⟩
    | raw item =>
      dsimp only
      cases hov : pickOverflowCell m.pool.cell.overflow s with
      | some optimal =>
        exact ⟨hpople, (List.erase_sublist optimal m.pool.cell.overflow).length_le,
          rfl, rfl⟩
      | none => exact ⟨hpople, le_refl _, rfl, rfl⟩
  | none =>
    dsimp only
    cases hov : pickOverflowCell m.pool.cell.overflow s with
    | some optimal =>
      exact ⟨hpople, (List.erase_sublist optimal m.pool.cell.overflow).length_le,
        rfl, rfl⟩
    | none => exact ⟨hpople, le_refl _, rfl, rfl⟩

/-- Helper: pooling a raw payload keeps the size classes within maxPoolSize
and the overflow within its half bound. -/
theorem releaseRawPayload_capacity (m : BufferManager) (item : RawPoolItem) (s : Int)
    (h1 : (classCount m.pool.raw.sizeClasses : Int) ≤ m.config.maxPoolSize)
    (h2 : 2 * (m.pool.raw.overflow.length : Int) ≤ m.config.maxPoolSize + 1) :
    (classCount (releaseRawPayload m item s).pool.raw.sizeClasses : Int) ≤
      m.config.maxPoolSize ∧
    2 * ((releaseRawPayload m item s).pool.raw.overflow.length : Int) ≤
      m.config.maxPoolSize + 1 ∧
    (releaseRawPayload m item s).pool.cell = m.pool.cell ∧
    (releaseRawPayload m item s).config = m.config := by
  unfold releaseRawPayload
  dsimp only
  cases hidx : m.pool.raw.sizeClasses.findIdx? (fun sc => s ≤ sc.size) with
  | some i =>
    dsimp only
    split
    · rename_i hlt
      refine ⟨?_, h2, rfl, rfl⟩
      dsimp only
      have hp := classCount_push_le m.pool.raw.sizeClasses i (.raw item)
      omega
    · split
      · rename_i hov
        refine ⟨h1, ?_, rfl, rfl⟩
        simp only [List.length_append, List.length_cons, List.length_nil]
        push_cast
        omega
      · exact ⟨h1, h2, rfl, rfl⟩
  | none =>
    dsimp only
    split
    · rename_i hov
      refine ⟨h1, ?_, rfl, rfl⟩
      simp only [List.length_append, List.length_cons, List.length_nil]
      push_cast
      omega
    · exact ⟨h1, h2, rfl, rfl⟩

/-- Helper: pooling a cell payload keeps the size classes within
maxPoolSize and the overflow within its half bound. -/
theorem releaseCellPayload_capacity (m : BufferManager) (item : CellPoolItem) (s : Int)
    (h3 : (classCount m.pool.cell.sizeClasses : Int) ≤ m.config.maxPoolSize)
    (h4 : 2 * (m.pool.cell.overflow.length : Int) ≤ m.config.maxPoolSize + 1) :
    (classCount (releaseCellPayload m item s).pool.cell.sizeClasses : Int) ≤
      m.config.maxPoolSize ∧
    2 * ((releaseCellPayload m item s).pool.cell.overflow.length : Int) ≤
      m.config.maxPoolSize + 1 ∧
    (releaseCellPayload m item s).pool.raw = m.pool.raw ∧
    (releaseCellPayload m item s).config = m.config := by
  unfold releaseCellPayload
  dsimp only
  cases hidx : m.pool.cell.sizeClasses.findIdx? (fun sc => s ≤ sc.size) with
  | some i =>
    dsimp only
    split
    · rename_i hlt
      refine ⟨?_, h4, rfl, rfl⟩
      dsimp only
      have hp := classCount_push_le m.pool.cell.sizeClasses i (.cell item)
      omega
    · split
      · rename_i hov
        refine ⟨h3, ?_, rfl, rfl⟩
        simp only [List.length_append, List.length_cons, List.length_nil]
        push_cast
        omega
      · exact ⟨h3, h4, rfl, rfl⟩
  | none =>
    dsimp only
    split
    · rename_i hov
      refine ⟨h3, ?_, rfl, rfl⟩
      simp only [List.length_append, List.length_cons, List.length_nil]
      push_cast
      omega
    · exact ⟨h3, h4, rfl, rfl⟩

/-- Helper: every operation preserves the capacity invariant the code
maintains. -/
theorem capacityInvariant_applyOp (m : BufferManager) (op : ManagerOp)
    (h : capacityInvariant m) : capacityInvariant (applyOp m op) := by
  obtain ⟨h1, h2, h3, h4⟩ := h
  cases op with
  | acquireOp t w h0 now =>
    unfold applyOp
    dsimp only
    cases hv : acquireBuffer m t w h0 now with
    | error e => exact ⟨h1, h2, h3, h4⟩
    | ok res =>
      obtain ⟨b0, m2⟩ := res
      dsimp only
      unfold acquireBuffer at hv
      cases hvd : validateBufferDimensions w h0 with
      | error e => rw [hvd] at hv; exact absurd hv (by simp)
      | ok u =>
        rw [hvd] at hv
        dsimp only at hv
        cases t with
        | raw =>
          have heq : m2 = (acquireRaw m w h0 (w * h0) now).2 :=
            (congrArg Prod.snd (Except.ok.inj hv)).symm
          rw [heq]
          obtain ⟨c1, c2, c3, c4⟩ := acquireRaw_counts m w h0 (w * h0) now
          refine ⟨?_, ?_, ?_, ?_⟩
          · rw [c4]; omega
          · rw [c4]; omega
          · rw [c4, c3]; exact h3
          · rw [c4, c3]; exact h4
        | cell =>
          have heq : m2 = (acquireCell m w h0 (w * h0) now).2 :=
            (congrArg Prod.snd (Except.ok.inj hv)).symm
          rw [heq]
          obtain ⟨c1, c2, c3, c4⟩ := acquireCell_counts m w h0 (w * h0) now
          refine ⟨?_, ?_, ?_, ?_⟩
          · rw [c4, c3]; exact h1
          · rw [c4, c3]; exact h2
          · rw [c4]; omega
          · rw [c4]; omega
  | releaseOp b now =>
    unfold applyOp
    dsimp only
    obtain ⟨type, width, height, data, metadata⟩ := b
    unfold releaseBuffer
    split
    · exact ⟨h1, h2, h3, h4⟩
    · cases type <;> cases data <;> dsimp only
      · obtain ⟨c1, c2, c3, c4⟩ := releaseRawPayload_capacity m
          { buffer := List.replicate _ 0, size := width * height, lastUsed := now }
          (width * height) h1 h2
        exact ⟨by rw [c4]; exact c1, by rw [c4]; exact c2,
          by rw [c4, c3]; exact h3, by rw [c4, c3]; exact h4⟩
      · exact ⟨h1, h2, h3, h4⟩
      · exact ⟨h1, h2, h3, h4⟩
      · obtain ⟨c1, c2, c3, c4⟩ := releaseCellPayload_capacity m
          { buffer := _, size := width * height, lastUsed := now }
          (width * height) h3 h4
        exact ⟨by rw [c4, c3]; exact h1, by rw [c4, c3]; exact h2,
          by rw [c4]; exact c1, by rw [c4]; exact c2⟩
  | cleanupOp now =>
    unfold applyOp
    dsimp only
    unfold cleanup
    refine ⟨?_, ?_, ?_, ?_⟩ <;> (try dsimp only)
    · have := classCount_cleanup_le m.config now m.pool.raw.sizeClasses
      omega
    · simp only [cleanupOverflowRaw, List.length_map]
      exact h2
    · have := classCount_cleanup_le m.config now m.pool.cell.sizeClasses
      omega
    · simp only [cleanupOverflowCell, List.length_map]
      exact h4

/-- Helper: pooling a raw payload never changes the configuration. -/
theorem releaseRawPayload_config (m : BufferManager) (item : RawPoolItem) (s : Int) :
    (releaseRawPayload m item s).config = m.config := by
  unfold releaseRawPayload
  repeat' (first | rfl | split | dsimp only)

/-- Helper: pooling a cell payload never changes the configuration. -/
theorem releaseCellPayload_config (m : BufferManager) (item : CellPoolItem) (s : Int) :
    (releaseCellPayload m item s).config = m.config := by
  unfold releaseCellPayload
  repeat' (first | rfl | split | dsimp only)

/-- Helper: operations never change the configuration. -/
theorem applyOp_config (m : BufferManager) (op : ManagerOp) :
    (applyOp m op).config = m.config := by
  cases op with
  | acquireOp t w h0 now =>
    unfold applyOp
    dsimp only
    cases hv : acquireBuffer m t w h0 now with
    | error e => rfl
    | ok res =>
      obtain ⟨b0, m2⟩ := res
      dsimp only
      unfold acquireBuffer at hv
      cases hvd : validateBufferDimensions w h0 with
      | error e => rw [hvd] at hv; exact absurd hv (by simp)
      | ok u =>
        rw [hvd] at hv
        dsimp only at hv
        cases t with
        | raw =>
          have heq : m2 = (acquireRaw m w h0 (w * h0) now).2 :=
            (congrArg Prod.snd (Except.ok.inj hv)).symm
          rw [heq]
          exact (acquireRaw_counts m w h0 (w * h0) now).2.2.2
        | cell =>
          have heq : m2 = (acquireCell m w h0 (w * h0) now).2 :=
            (congrArg Prod.snd (Except.ok.inj hv)).symm
          rw [heq]
          exact (acquireCell_counts m w h0 (w * h0) now).2.2.2
  | releaseOp b now =>
    unfold applyOp
    dsimp only
    obtain ⟨type, width, height, data, metadata⟩ := b
    unfold releaseBuffer
    split
    · rfl
    · cases type <;> cases data <;> dsimp only
      · exact releaseRawPayload_config m _ _
      · exact releaseCellPayload_config m _ _
  | cleanupOp now => rfl

/-- Helper: the configuration of every reachable manager state is the one
the manager was created with. -/
theorem runOps_config (cfg : BufferManagerConfig) (ops : List ManagerOp) :
    (runOps (createBufferManager cfg) ops).config = cfg := by
  suffices h : ∀ m : BufferManager, m.config = cfg → (runOps m ops).config = cfg from
    h _ rfl
  unfold runOps
  induction ops with
  | nil => intro m h; exact h
  | cons op rest ih => intro m h; exact ih _ ((applyOp_config m op).trans h)

/-- C1, amended: the claimed bound fails (see the counterexample above);
what the code maintains per kind, after every sequence of acquireBuffer,
releaseBuffer and cleanup calls, is that the size classes together hold at
most maxPoolSize items and the overflow holds at most
ceil(maxPoolSize / 2) items, so the total pooled + overflow count per kind
is bounded by maxPoolSize + ceil(maxPoolSize / 2), not by maxPoolSize. -/
theorem capacity_invariant_amended (cfg : BufferManagerConfig) (ops : List ManagerOp)
    (h : 0 ≤ cfg.maxPoolSize) :
    capacityInvariant (runOps (createBufferManager cfg) ops) ∧
    (classCount (runOps (createBufferManager cfg) ops).pool.raw.sizeClasses : Int) +
      (runOps (createBufferManager cfg) ops).pool.raw.overflow.length ≤
      cfg.maxPoolSize + (cfg.maxPoolSize + 1) / 2 ∧
    (classCount (runOps (createBufferManager cfg) ops).pool.cell.sizeClasses : Int) +
      (runOps (createBufferManager cfg) ops).pool.cell.overflow.length ≤
      cfg.maxPoolSize + (cfg.maxPoolSize + 1) / 2 := by
  have hinv : capacityInvariant (runOps (createBufferManager cfg) ops) := by
    suffices hstep : ∀ m : BufferManager, capacityInvariant m →
        capacityInvariant (runOps m ops) by
      refine hstep _ ⟨?_, ?_, ?_, ?_⟩ <;> dsimp only [createBufferManager]
      · rw [show classCount (createSizeClasses cfg) = 0 from
          classCount_createSizeClassesGo _ _ _]
        simpa using h
      · simp only [List.length_nil]
        omega
      · rw [show classCount (createSizeClasses cfg) = 0 from
          classCount_createSizeClassesGo _ _ _]
        simpa using h
      · simp only [List.length_nil]
        omega
    unfold runOps
    induction ops with
    | nil => intro m hm; exact hm
    | cons op rest ih => intro m hm; exact ih _ (capacityInvariant_applyOp m op hm)
  have hconf := runOps_config cfg ops
  obtain ⟨h1, h2, h3, h4⟩ := hinv
  rw [hconf] at h1 h2 h3 h4
  refine ⟨⟨by rw [hconf]; exact h1, by rw [hconf]; exact h2,
    by rw [hconf]; exact h3, by rw [hconf]; exact h4⟩, by omega, by omega⟩

/-- C1, witness for the amended bound: the overfilled small manager
(maxPoolSize 2) satisfies the per-kind invariant and the 2 + 1 total
bound. -/
theorem capacity_invariant_amended_witness :
    (0 : Int) ≤ smallConfig.maxPoolSize ∧
    (capacityInvariant (runOps (createBufferManager smallConfig) overfillOps) ∧
    (classCount (runOps (createBufferManager smallConfig) overfillOps).pool.raw.sizeClasses : Int) +
      (runOps (createBufferManager smallConfig) overfillOps).pool.raw.overflow.length ≤
      smallConfig.maxPoolSize + (smallConfig.maxPoolSize + 1) / 2 ∧
    (classCount (runOps (createBufferManager smallConfig) overfillOps).pool.cell.sizeClasses : Int) +
      (runOps (createBufferManager smallConfig) overfillOps).pool.cell.overflow.length ≤
      smallConfig.maxPoolSize + (smallConfig.maxPoolSize + 1) / 2) :=
  ⟨by decide, capacity_invariant_amended smallConfig overfillOps (by decide)⟩

end Bunhance


